/-
Verification of the frequency-domain extraction / adjoint-source core of
the meep_adjoint repository (files meep_adjoint/dft_cell.py and
meep_adjoint/objective.py), as a shallow embedding in Lean 4.

Conventions of the embedding:
* Python floats are modelled as exact rationals (for the dft_cell module,
  where concrete evaluation by kernel reduction is needed) or as reals
  (for the objective module, whose scale formula involves pi).
* Complex numpy arrays are modelled as lists of `Cplx` (a rational
  complex-number structure with decidable equality) or of Mathlib `ℂ`.
* Python exceptions are modelled with `Except`: a raised exception is an
  `Except.error`; a function body that falls off the end returns the
  Python value None, modelled by an explicit constructor where relevant.
* In-place mutation of attributes is modelled by explicit state passing.
* Rational arithmetic is routed through `mkRat`-based operations
  (`qadd`, `qmul`, ...) because the standard `Rat.add`/`Rat.mul` do not
  reduce in the kernel; the bridge lemmas `qadd_eq` etc. relate them to
  the ordinary field operations of ℚ.
-/
import Mathlib

set_option maxRecDepth 10000

/-! ## Kernel-reducible rational arithmetic -/

/-- Addition on ℚ via `mkRat`, definitionally evaluable by the kernel. -/
def qadd (a b : ℚ) : ℚ := mkRat (a.num * b.den + b.num * a.den) (a.den * b.den)

/-- Negation on ℚ via `mkRat`. -/
def qneg (a : ℚ) : ℚ := mkRat (-a.num) a.den

/-- Subtraction on ℚ via `mkRat`. -/
def qsub (a b : ℚ) : ℚ := qadd a (qneg b)

/-- Multiplication on ℚ via `mkRat`. -/
def qmul (a b : ℚ) : ℚ := mkRat (a.num * b.num) (a.den * b.den)

/-- Division on ℚ via `Rat.divInt` (division by 0 yields 0, matching the
field convention of ℚ; the modelled code never divides by zero on the
paths the claims exercise). -/
def qdiv (a b : ℚ) : ℚ := Rat.divInt (a.num * b.den) (a.den * b.num)

/-- Embedding ℕ → ℚ via `mkRat`. -/
def qofNat (n : ℕ) : ℚ := mkRat n 1

/-- Boolean positivity test on ℚ (sign of the numerator). -/
def qpos (a : ℚ) : Bool := 0 < a.num

/-- Ceiling of a rational as an integer, via flooring integer division. -/
def qceil (a : ℚ) : ℤ := Int.fdiv (a.num + a.den - 1) a.den

/-! ## Complex scalars for dft_cell arrays -/

/-- Complex numbers with rational components, modelling the complex
floating-point scalars of numpy arrays in dft_cell.py. -/
structure Cplx where
  re : ℚ
  im : ℚ
  deriving DecidableEq, Repr

/-- Addition of rational complex numbers. -/
def Cplx.add (z w : Cplx) : Cplx := ⟨qadd z.re w.re, qadd z.im w.im⟩

/-- Subtraction of rational complex numbers. -/
def Cplx.sub (z w : Cplx) : Cplx := ⟨qsub z.re w.re, qsub z.im w.im⟩

/-- Multiplication of rational complex numbers. -/
def Cplx.mul (z w : Cplx) : Cplx :=
  ⟨qsub (qmul z.re w.re) (qmul z.im w.im), qadd (qmul z.re w.im) (qmul z.im w.re)⟩

/-- Complex conjugation, modelling np.conj. -/
def Cplx.conj (z : Cplx) : Cplx := ⟨z.re, qneg z.im⟩

/-- Negation of a rational complex number. -/
def Cplx.neg (z : Cplx) : Cplx := ⟨qneg z.re, qneg z.im⟩

/-- Embedding of a rational scalar as a complex number. -/
def Cplx.ofRat (q : ℚ) : Cplx := ⟨q, 0⟩

/-- Multiplicative inverse of a rational complex number (0 maps to 0;
the modelled code never divides by zero on claim-relevant paths). -/
def Cplx.inv (z : Cplx) : Cplx :=
  ⟨qdiv z.re (qadd (qmul z.re z.re) (qmul z.im z.im)),
   qneg (qdiv z.im (qadd (qmul z.re z.re) (qmul z.im z.im)))⟩

/-- Division of rational complex numbers. -/
def Cplx.div (z w : Cplx) : Cplx := z.mul w.inv

instance : Add Cplx := ⟨Cplx.add⟩
instance : Sub Cplx := ⟨Cplx.sub⟩
instance : Mul Cplx := ⟨Cplx.mul⟩
instance : Neg Cplx := ⟨Cplx.neg⟩
instance : Div Cplx := ⟨Cplx.div⟩
instance : Zero Cplx := ⟨⟨0, 0⟩⟩
instance : One Cplx := ⟨⟨1, 0⟩⟩

/-- Elementwise complex conjugate of an array slice (np.conj on an array). -/
def vconj (v : List Cplx) : List Cplx := v.map Cplx.conj

/-- Elementwise product of two array slices (numpy `*`). -/
def vmul (v w : List Cplx) : List Cplx := List.zipWith Cplx.mul v w

/-- Elementwise difference of two array slices (numpy `-`). -/
def vsub (v w : List Cplx) : List Cplx := List.zipWith Cplx.sub v w

/-- Elementwise sum of two array slices (numpy `+`). -/
def vadd (v w : List Cplx) : List Cplx := List.zipWith Cplx.add v w

/-- Elementwise product of a real weight array with a complex slice
(numpy `w * arr`). -/
def wmul (w : List ℚ) (v : List Cplx) : List Cplx :=
  List.zipWith (fun a z => (Cplx.ofRat a).mul z) w v

/-- Sum of all entries of a complex slice (np.sum). -/
def csum (v : List Cplx) : Cplx := v.foldl Cplx.add 0

/-! ## Python string helpers (kernel-reducible) -/

/-- Python str.upper for the ASCII quantity codes. -/
def pyUpper (s : String) : String := ⟨s.data.map Char.toUpper⟩

/-- Python str.islower: at least one cased character, and every cased
character is lowercase (the quantity codes are ASCII, where the cased
characters are exactly the letters). -/
def pyIsLower (s : String) : Bool :=
  s.data.any Char.isAlpha && s.data.all (fun c => !c.isAlpha || c.isLower)

/-- Python substring membership `needle in haystack` for strings. -/
def isSubstrOf (needle hay : String) : Bool :=
  (List.range (hay.data.length + 1)).any
    (fun i => needle.data.isPrefixOf (hay.data.drop i))

/-! ## Grid construction (dft_cell.py) -/

/-- Grid, the namedtuple of dft_cell.py: per-axis tic coordinates, the
flattened point list, per-point integration weights, and the logical shape. -/
structure Grid where
  xtics : List ℚ
  ytics : List ℚ
  ztics : List ℚ
  points : List (ℚ × ℚ × ℚ)
  weights : List ℚ
  shape : List ℕ
  deriving DecidableEq, Repr

/-- Number of nonzero entries of a size vector (len(np.flatnonzero(size))). -/
def flatnonzeroCount (size : List ℚ) : ℕ := (size.filter (fun s => s ≠ 0)).length

/-- Model of np.linspace(a, b, n) with endpoint=True: n equally spaced
samples from a to b; a single sample is the start point. -/
def linspace (a b : ℚ) (n : ℕ) : List ℚ :=
  if n = 0 then []
  else if n = 1 then [a]
  else (List.range n).map (fun i => qadd a (qdiv (qmul (qsub b a) (qofNat i)) (qofNat (n - 1))))

/-- Python max(1, int(np.ceil(q))). -/
def ceilAtLeastOne (q : ℚ) : ℕ := (max 1 (qceil q)).toNat

/-- Shallow embedding of make_grid(size, center, dims, length) from
dft_cell.py.  Notable source behaviours reproduced exactly: the inputs are
truncated to the first `nd` axes where `nd` counts the nonzero entries of
`size`; when exactly two tic lists result, a literal `[0]` third tic list
is appended (not `[center[2]]`); the weight normalisation uses the product
of the positive entries of the truncated size vector.  Python raises
IndexError when fewer than three tic lists exist, modelled as `none`. -/
def makeGrid (size center : List ℚ) (dims0 : Option (List ℕ))
    (length : Option ℚ) : Option Grid :=
  let nd := flatnonzeroCount size
  let center1 := center.take nd
  let size1 := size.take nd
  let dims : List ℕ :=
    match length with
    | some l => size1.map (fun s => ceilAtLeastOne (qdiv s l))
    | none =>
      match dims0 with
      | some d => d
      | none => size1.map (fun s => if qpos s then 10 else 1)
  let pmin := List.zipWith (fun c s => qsub c (qdiv s 2)) center1 size1
  let pmax := List.zipWith (fun c s => qadd c (qdiv s 2)) center1 size1
  let tics0 := List.zipWith (fun p n => linspace p.1 p.2 n) (pmin.zip pmax) dims
  let tics := if tics0.length = 2 then tics0 ++ [[0]] else tics0
  match tics with
  | tx :: ty :: tz :: _ =>
    let points := tx.flatMap (fun x => ty.flatMap (fun y => tz.map (fun z => (x, y, z))))
    let vol : ℚ := (size1.filter (fun s => qpos s)).foldl qmul 1
    let ntot : ℕ := dims.foldl (· * ·) 1
    let weights := List.replicate ntot (qdiv vol (qofNat ntot))
    let shape := (tics.filter (fun t => 1 < t.length)).map List.length
    some ⟨tx, ty, tz, points, weights, shape⟩
  | _ => none

/-- One axis of fix_array_metadata from dft_cell.py: when the declared
size of the axis is zero and the first raw coordinate differs from the
declared center, collapse the axis to the single value `center[d]`;
otherwise keep the raw coordinates (the `np.array` conversion of the else
branch is the identity here).  Reading the first coordinate of an empty
array is an IndexError, modelled as `none`. -/
def fixAxis (tics : List ℚ) (cd sd : ℚ) : Option (List ℚ) :=
  if sd = 0 then
    match tics[0]? with
    | some x0 => some (if x0 ≠ cd then [cd] else tics)
    | none => none
  else some tics

/-- Shallow embedding of fix_array_metadata(xyzw, center, size).  The
Python routine mutates the 4-element list xyzw = [x, y, z, w] in place,
looping over the three coordinate axes d = 0, 1, 2 and leaving the weight
array untouched; the loop is unrolled here and the updated arrays are
returned.  Missing indices in center or size are IndexErrors (`none`). -/
def fixArrayMetadata (x y z w : List ℚ) (center size : List ℚ) :
    Option (List ℚ × List ℚ × List ℚ × List ℚ) := do
  let c0 ← center[0]?
  let s0 ← size[0]?
  let x1 ← fixAxis x c0 s0
  let c1 ← center[1]?
  let s1 ← size[1]?
  let y1 ← fixAxis y c1 s1
  let c2 ← center[2]?
  let s2 ← size[2]?
  let z1 ← fixAxis z c2 s2
  pure (x1, y1, z1, w)

/-! ## Subregion (dft_cell.py) -/

/-- Three-component rational vector, modelling mp.Vector3. -/
def Vec3 : Type := ℚ × ℚ × ℚ

instance : DecidableEq Vec3 := by unfold Vec3; infer_instance

/-- Componentwise vector addition. -/
def v3add (u v : Vec3) : Vec3 := (qadd u.1 v.1, qadd u.2.1 v.2.1, qadd u.2.2 v.2.2)

/-- Componentwise vector subtraction. -/
def v3sub (u v : Vec3) : Vec3 := (qsub u.1 v.1, qsub u.2.1 v.2.1, qsub u.2.2 v.2.2)

/-- Scalar multiple of a vector. -/
def v3smul (a : ℚ) (v : Vec3) : Vec3 := (qmul a v.1, qmul a v.2.1, qmul a v.2.2)

/-- Subregion of the computational cell, with the fields assigned by
Subregion.__init__ of dft_cell.py. -/
structure Subregion where
  fcen : ℚ
  df : ℚ
  nfreq : ℕ
  xmin : Vec3
  xmax : Vec3
  center : Vec3
  size : Vec3
  normal : Option ℕ
  name : Option String
  deriving DecidableEq

/-- Shallow embedding of Subregion.__init__.  When both corners are given,
center and size are derived as 0.5*(xmax+xmin) and xmax-xmin; otherwise,
when size is given, the corners are derived as center + sgn*size for
sgn in [-1, 1] (exactly as in the source: the 1/2 factor is absent).
When neither form is given the geometric attributes are never assigned
and any later use is an AttributeError, modelled as `none`. -/
def mkSubregion (fcen df : ℚ) (nfreq : ℕ) (xmin xmax : Option Vec3)
    (center : Vec3) (size : Option Vec3) (normal dir : Option ℕ)
    (name : Option String) : Option Subregion :=
  let nrm := match normal with
    | none => dir
    | some n => some n
  match xmin, xmax with
  | some a, some b =>
    some ⟨fcen, df, nfreq, a, b, v3smul (mkRat 1 2) (v3add b a), v3sub b a, nrm, name⟩
  | _, _ =>
    match size with
    | some sz =>
      some ⟨fcen, df, nfreq, v3add center (v3smul (qneg 1) sz), v3add center sz,
            center, sz, nrm, name⟩
    | none => none

/-! ## DFTCell state and quantity evaluation (dft_cell.py) -/

/-- Meep field components. -/
inductive Cpt where
  | Ex | Ey | Ez | Hx | Hy | Hz
  deriving DecidableEq, Repr

/-- E_CPTS of dft_cell.py. -/
def E_CPTS : List Cpt := [.Ex, .Ey, .Ez]

/-- H_CPTS of dft_cell.py. -/
def H_CPTS : List Cpt := [.Hx, .Hy, .Hz]

/-- EH_CPTS of dft_cell.py. -/
def EH_CPTS : List Cpt := E_CPTS ++ H_CPTS

/-- EH_TRANSVERSE of dft_cell.py: the tangential component quadruple for
each normal direction. -/
def EH_TRANSVERSE : List (List Cpt) :=
  [[.Ey, .Ez, .Hy, .Hz], [.Ez, .Ex, .Hz, .Hx], [.Ex, .Ey, .Hx, .Hy]]

/-- Python exceptions raised by DFTCell methods: the ValueError of
get_EH_slices for an unknown label (carrying the cell name and the label,
as the formatted message does), and IndexError for out-of-range access. -/
inductive CellErr where
  | unknownLabel (cell lab : String)
  | indexErr
  deriving DecidableEq, Repr

/-- Result of DFTCell.__call__: a real number (flux), a complex number
(coefficient or energy), or the Python value None that the unsupported-code
path returns because its ValueError is constructed but never raised. -/
inductive CallResult where
  | rvalue (r : ℚ)
  | cvalue (z : Cplx)
  | pynone
  deriving DecidableEq, Repr

/-- The state of a DFTCell relevant to slice retrieval and quantity
evaluation.  The live frequency-domain arrays produced by
sim.get_dft_array (already zero-padded by get_EH_slice), the eigenmode
slice sets produced by get_eigenmode_slices, and the permittivity and
permeability arrays are opaque simulation outputs, modelled as functions
that are part of the state. -/
structure DFTCellState where
  name : String
  components : List Cpt
  freqs : List ℚ
  weights : List ℚ
  live : Cpt → ℕ → List Cplx
  cache : List (String × List (List (List Cplx)))
  eigen : ℕ → ℕ → List (List Cplx)
  epsArr : ℕ → List Cplx
  muArr : ℕ → List Cplx

/-- List indexing with Python IndexError semantics. -/
def nth (l : List α) (n : ℕ) : Except CellErr α :=
  match l[n]? with
  | some a => .ok a
  | none => .error .indexErr

/-- Shallow embedding of DFTCell.get_EH_slices(label, nf): live slices for
label None, cached slices for a saved label, and a raised ValueError
naming the cell and the label when no data was saved under it. -/
def DFTCellState.getEHSlices (s : DFTCellState) (label : Option String)
    (nf : ℕ) : Except CellErr (List (List Cplx)) :=
  match label with
  | none => .ok (s.components.map (fun c => s.live c nf))
  | some lab =>
    match s.cache.lookup lab with
    | some data =>
      match data[nf]? with
      | some sl => .ok sl
      | none => .error .indexErr
    | none => .error (.unknownLabel s.name lab)

/-- Shallow embedding of DFTCell.subtract_incident_fields(EHT, nf): fetch
the slice set saved under the label "incident" and subtract it
componentwise from EHT (the in-place loop over enumerate(self.components)
is modelled functionally; indexing past either slice list is an
IndexError). -/
def DFTCellState.subtractIncident (s : DFTCellState)
    (EHT : List (List Cplx)) (nf : ℕ) : Except CellErr (List (List Cplx)) := do
  let EHI ← s.getEHSlices (some "incident") nf
  let n := s.components.length
  if n ≤ EHT.length ∧ n ≤ EHI.length then
    pure (List.zipWith vsub (EHT.take n) (EHI.take n) ++ EHT.drop n)
  else
    .error .indexErr

/-- Shallow embedding of DFTCell.save_fields(label): snapshot the live
slices at every configured frequency under the label (a later save under
the same label shadows the earlier entry, as dict assignment does). -/
def DFTCellState.saveFields (s : DFTCellState) (label : String) : DFTCellState :=
  { s with cache :=
      (label, (List.range s.freqs.length).map
        (fun nf => s.components.map (fun c => s.live c nf))) :: s.cache }

/-- Replace the live-field function of a cell, modelling the DFT registers
being overwritten by a subsequent simulation run. -/
def DFTCellState.withLive (s : DFTCellState) (f : Cpt → ℕ → List Cplx) :
    DFTCellState := { s with live := f }

/-- Componentwise |arr|^2 sum over the components of `comps` that belong
to `sel`, i.e. np.sum([np.conj(EH[nc])*EH[nc] for nc, c in
enumerate(comps) if c in sel], axis=0); an empty selection yields the
scalar 0, modelled as the empty slice (its weighted sum is 0 either way). -/
def sumConjSq (EH : List (List Cplx)) (comps sel : List Cpt) :
    Except CellErr (List Cplx) := do
  let selected ← (comps.enum.filter (fun p => sel.contains p.2)).mapM
    (fun p => nth EH p.1)
  let sq := selected.map (fun x => vmul (vconj x) x)
  match sq with
  | [] => pure []
  | x :: xs => pure (xs.foldl vadd x)

/-- Shallow embedding of DFTCell.__call__(qcode, mode, nf).  The branch
structure, the case-sensitivity of the incident-field subtraction and of
the coefficient sign test, the substring membership test against "PFMB",
and the final unsupported-code path (which constructs a ValueError but
does not raise it, so the call returns None) all follow the source. -/
def DFTCellState.call (s : DFTCellState) (qcode : String) (mode nf : ℕ) :
    Except CellErr CallResult := do
  let w := s.weights
  let EH0 ← s.getEHSlices none nf
  let quantity := pyUpper qcode
  let EH ← if pyIsLower qcode then s.subtractIncident EH0 nf else pure EH0
  if quantity = "S" then
    let F0 ← nth EH 0
    let F1 ← nth EH 1
    let F2 ← nth EH 2
    let F3 ← nth EH 3
    pure (.rvalue (csum (wmul w (vsub (vmul (vconj F0) F3) (vmul (vconj F1) F2)))).re)
  else if isSubstrOf (pyUpper quantity) "PFMB" then
    let eh := s.eigen mode nf
    let e0 ← nth eh 0
    let e1 ← nth eh 1
    let e2 ← nth eh 2
    let e3 ← nth eh 3
    let F0 ← nth EH 0
    let F1 ← nth EH 1
    let F2 ← nth EH 2
    let F3 ← nth EH 3
    let eHs := csum (wmul w (vsub (vmul (vconj e0) F3) (vmul (vconj e1) F2)))
    let hEs := csum (wmul w (vsub (vmul (vconj e3) F0) (vmul (vconj e2) F1)))
    let sign : Cplx := if qcode = "P" ∨ qcode = "F" then 1 else -1
    pure (.cvalue ((eHs + sign * hEs) / ⟨4, 0⟩))
  else if (["UE", "UH", "UM", "UEH", "UEM", "UT"] : List String).contains quantity then
    let qE ←
      if (["UE", "UEH", "UEM", "UT"] : List String).contains quantity then do
        let eps := s.epsArr nf
        let E2 ← sumConjSq EH s.components E_CPTS
        pure ((⟨mkRat 1 2, 0⟩ : Cplx) * csum (wmul w (vmul eps E2)))
      else pure 0
    let qH ←
      if (["UH", "UM", "UEH", "UEM", "UT"] : List String).contains quantity then do
        let mu := s.muArr nf
        let H2 ← sumConjSq EH s.components H_CPTS
        pure ((⟨mkRat 1 2, 0⟩ : Cplx) * csum (wmul w (vmul mu H2)))
      else pure 0
    pure (.cvalue (qE + qH))
  else
    pure .pynone

/-- The unnormalized mode-overlap coefficient (eH + sign*hE)/4 of the
specification, written over the four eigenmode slices and the four live
tangential slices. -/
def modeOverlap (sign : Cplx) (w : List ℚ) (e0 e1 e2 e3 F0 F1 F2 F3 : List Cplx) : Cplx :=
  ((csum (wmul w (vsub (vmul (vconj e0) F3) (vmul (vconj e1) F2)))) +
    sign * (csum (wmul w (vsub (vmul (vconj e3) F0) (vmul (vconj e2) F1))))) / ⟨4, 0⟩

/-! ## Objective quantity and adjoint source synthesis (objective.py) -/

/-- The value of np.pi: the IEEE-754 double nearest pi, which is exactly
the dyadic rational 884279719003555 / 2^48. -/
def NP_PI : ℚ := mkRat 884279719003555 281474976710656

/-- The imaginary unit 1j. -/
def cI : Cplx := ⟨0, 1⟩

/-- Unit vector along the x axis (mp.Vector3(x=1)). -/
def xhat3 : Vec3 := ((1 : ℚ), 0, 0)

/-- Unit vector along the y axis (mp.Vector3(y=1)). -/
def yhat3 : Vec3 := ((0 : ℚ), 1, 0)

/-- A source time profile: its centre frequency and its Fourier transform,
the two members of the external mp.SrcTime object that
place_adjoint_source consults. -/
structure TimeSrc where
  frequency : ℚ
  ft : ℚ → Cplx

/-- Python exceptions raised by place_adjoint_source: the AttributeError
hit when the evaluation state (time_src, cscale, freqs) was never
populated by a prior call of the quantity (the PrematureAccess of the
specification taxonomy), and the UnboundLocalError hit when the local
variable k0 is read without ever having been assigned (the defective
normal_direction == 2 branch, and the fall-through when no branch
matches). -/
inductive ObjErr where
  | prematureAccess
  | unboundLocalRead
  deriving DecidableEq, Repr

/-- The temporal envelope given to the adjoint EigenModeSource: either the
forward run's time profile reused directly (single frequency), or a
FilteredSource synthesised from the broadband scale profile.
FilteredSource lives in filter_source.py, outside the modelled core; it is
kept opaque here, recording exactly the arguments objective.py passes. -/
inductive SrcEnv where
  | fwd (t : TimeSrc)
  | filtered (fcen : ℚ) (freqs : List ℚ) (scale : List Cplx) (dt time : ℚ) (t : TimeSrc)

/-- The mp.EigenModeSource object built by place_adjoint_source, with the
fields objective.py supplies.  The scalar amplitude 1 of the
multi-frequency branch is modelled as the one-element list [1]. -/
structure AdjointSource where
  src : SrcEnv
  band : ℕ
  kpoint : Vec3
  amp : List Cplx
  center : Vec3
  size : Vec3

/-- The state of an EigenmodeCoefficient instance.  forwardIdx is
`self.forward = 0 if forward else 1` of the constructor; the attributes
populated only by a later call (time_src, cscale, freqs) are Options that
are `none` until then, so that reading them while unset is the
AttributeError modelled by ObjErr.prematureAccess.  cscale, an opaque
engine-provided normalization value, is modelled as a single complex
scalar. -/
structure EigenmodeCoefficient where
  resolution : ℚ
  center : Vec3
  size : Vec3
  mode : ℕ
  forwardIdx : ℕ
  k0 : Option Vec3
  normalDirection : Option ℕ
  timeSrc : Option TimeSrc
  cscale : Option Cplx
  freqs : Option (List ℚ)

/-- Python `1 if self.forward else -1`: self.forward is the integer index
0 (forward) or 1 (reverse), and integer truthiness makes 0 falsy, so the
scalar is -1 exactly when the monitor runs forward. -/
def directionScalar (forwardIdx : ℕ) : ℚ := if forwardIdx ≠ 0 then 1 else -1

/-- The wavevector determination at the top of place_adjoint_source.
With a user-supplied k0 the scaled vector is used.  Otherwise the detected
normal axis selects a branch: axes 0 and 1 assign the scaled unit vector;
the axis-2 branch is `k0 == direction_scalar * mp.Vector3(z=1)` — an
equality comparison, not an assignment — whose evaluation reads the local
k0 that was never bound, raising UnboundLocalError immediately.  Any other
axis value matches no branch and leaves k0 unbound (`ok none`); the read
then fails later, at the EigenModeSource construction. -/
def computeK0 (k0 : Option Vec3) (forwardIdx : ℕ) (nd : Option ℕ) :
    Except ObjErr (Option Vec3) :=
  match k0 with
  | some v => .ok (some (v3smul (directionScalar forwardIdx) v))
  | none =>
    match nd with
    | some 0 => .ok (some (v3smul (directionScalar forwardIdx) xhat3))
    | some 1 => .ok (some (v3smul (directionScalar forwardIdx) yhat3))
    | some 2 => .error .unboundLocalRead
    | _ => .ok none

/-- Shallow embedding of EigenmodeCoefficient.place_adjoint_source(dJ, dt,
time).  dJ is taken already broadcast to the frequency sweep
(np.atleast_1d plus numpy broadcasting).  The evaluation-state attributes
are read in source order (cscale at the da_dE line, then freqs, then
time_src); the per-frequency scale is da_dE * dJ * 1j * 2 * pi * f / FT(f)
with da_dE = 0.5 * (1/resolution * 1/resolution * cscale); a
single-frequency sweep reuses the forward time profile with
amplitude = scale, a broadband sweep builds a FilteredSource with
amplitude 1. -/
def placeAdjointSource (m : EigenmodeCoefficient) (dJ : List Cplx) (dt time : ℚ) :
    Except ObjErr AdjointSource := do
  let k0opt ← computeK0 m.k0 m.forwardIdx m.normalDirection
  let cs ← match m.cscale with
    | some c => Except.ok c
    | none => Except.error ObjErr.prematureAccess
  let fs ← match m.freqs with
    | some f => Except.ok f
    | none => Except.error ObjErr.prematureAccess
  let ts ← match m.timeSrc with
    | some t => Except.ok t
    | none => Except.error ObjErr.prematureAccess
  let da_dE : Cplx := Cplx.ofRat (mkRat 1 2) *
    (Cplx.ofRat (qdiv 1 m.resolution) * Cplx.ofRat (qdiv 1 m.resolution) * cs)
  let scale : List Cplx := (fs.zip dJ).map
    (fun p => da_dE * p.2 * cI * Cplx.ofRat 2 * Cplx.ofRat NP_PI * Cplx.ofRat p.1 / ts.ft p.1)
  let srcAmp : SrcEnv × List Cplx :=
    if fs.length = 1 then (.fwd ts, scale)
    else (.filtered ts.frequency fs scale dt time ts, [1])
  match k0opt with
  | some kv => .ok ⟨srcAmp.1, m.mode, kv, srcAmp.2, m.center, m.size⟩
  | none => .error ObjErr.unboundLocalRead

/-- The per-frequency scale list carried by a built adjoint source: in the
single-frequency branch objective.py passes it as the source amplitude,
and in the broadband branch it is the scale argument handed to the
FilteredSource envelope (the amplitude being 1 there). -/
def AdjointSource.scaleProfile (a : AdjointSource) : List Cplx :=
  match a.src with
  | .fwd _ => a.amp
  | .filtered _ _ scale _ _ _ => scale

/-- Decidable equality for Except results, so that concrete evaluations of
the modelled functions can be checked by the kernel. -/
instance instDecEqExcept {ε α : Type} [DecidableEq ε] [DecidableEq α] :
    DecidableEq (Except ε α) := fun a b =>
  match a, b with
  | .error x, .error y =>
    if h : x = y then isTrue (by rw [h]) else isFalse (fun c => h (by injection c))
  | .error _, .ok _ => isFalse (fun c => Except.noConfusion c)
  | .ok _, .error _ => isFalse (fun c => Except.noConfusion c)
  | .ok x, .ok y =>
    if h : x = y then isTrue (by rw [h]) else isFalse (fun c => h (by injection c))

/-! ## Concrete fixtures used by counterexamples and witnesses -/

/-- Live field slices of a one-point flux cell: Ey = 1 on the single grid
point, all other components 0, at every frequency index. -/
def cexLive : Cpt → ℕ → List Cplx := fun c _ =>
  match c with
  | .Ey => [⟨1, 0⟩]
  | _ => [⟨0, 0⟩]

/-- Eigenmode slices of the same cell: e_t1 = 1 and h_t2 = 1 on the single
grid point, for every mode and frequency index. -/
def cexEigen : ℕ → ℕ → List (List Cplx) := fun _ _ =>
  [[⟨1, 0⟩], [⟨0, 0⟩], [⟨0, 0⟩], [⟨1, 0⟩]]

/-- A saved incident slice set that is identically zero (one frequency,
four components, one grid point). -/
def cexIncident : List (List (List Cplx)) := [[[⟨0, 0⟩], [⟨0, 0⟩], [⟨0, 0⟩], [⟨0, 0⟩]]]

/-- A concrete one-point flux cell (normal direction 0, components
[Ey, Ez, Hy, Hz], one frequency, unit weight) with the incident label
saved.  On it, eH = 0 and hE = 1, so the forward overlap (eH + hE)/4 is
1/4 and the backward overlap (eH - hE)/4 is -1/4. -/
def cexCell : DFTCellState where
  name := "flux_0"
  components := [.Ey, .Ez, .Hy, .Hz]
  freqs := [1]
  weights := [1]
  live := cexLive
  cache := [("incident", cexIncident)]
  eigen := cexEigen
  epsArr := fun _ => [⟨1, 0⟩]
  muArr := fun _ => [⟨1, 0⟩]

/-- A time profile with centre frequency 1 and Fourier transform
identically 1. -/
def tsrcOne : TimeSrc := ⟨1, fun _ => ⟨1, 0⟩⟩

/-- An evaluated EigenmodeCoefficient with resolution 1, cscale 2, a
single realized frequency 1, a fixed wavevector, and forward = True
(forwardIdx 0). -/
def mC6 : EigenmodeCoefficient where
  resolution := 1
  center := ((0 : ℚ), 0, 0)
  size := ((0 : ℚ), 0, 0)
  mode := 1
  forwardIdx := 0
  k0 := some ((1 : ℚ), 0, 0)
  normalDirection := none
  timeSrc := some tsrcOne
  cscale := some ⟨2, 0⟩
  freqs := some [1]

/-- An unevaluated EigenmodeCoefficient (time_src, cscale, freqs never
populated) whose detected normal axis is 2 and whose wavevector was not
fixed, so place_adjoint_source enters the defective axis-2 branch. -/
def mC9 : EigenmodeCoefficient where
  resolution := 10
  center := ((0 : ℚ), 0, 0)
  size := ((0 : ℚ), 0, 0)
  mode := 1
  forwardIdx := 0
  k0 := none
  normalDirection := some 2
  timeSrc := none
  cscale := none
  freqs := none

/-- An unevaluated EigenmodeCoefficient with a fixed wavevector (so the
wavevector branch succeeds). -/
def mC9w : EigenmodeCoefficient where
  resolution := 10
  center := ((0 : ℚ), 0, 0)
  size := ((0 : ℚ), 0, 0)
  mode := 1
  forwardIdx := 1
  k0 := some ((1 : ℚ), 0, 0)
  normalDirection := some 0
  timeSrc := none
  cscale := none
  freqs := none

/-! ## Bridge lemmas from the kernel-reducible rational operations to the
field structure of ℚ -/
theorem qnum_eq (a : ℚ) : ((a.num : ℚ)) = a * a.den := by
  have ha : ((a.den : ℚ)) ≠ 0 := by exact_mod_cast a.den_nz
  exact (div_eq_iff ha).mp (Rat.num_div_den a)

theorem qadd_eq (a b : ℚ) : qadd a b = a + b := by
  have ha : ((a.den : ℚ)) ≠ 0 := by exact_mod_cast a.den_nz
  have hb : ((b.den : ℚ)) ≠ 0 := by exact_mod_cast b.den_nz
  rw [qadd, Rat.mkRat_eq_div]
  push_cast
  rw [div_eq_iff (mul_ne_zero ha hb), qnum_eq a, qnum_eq b]
  ring

theorem qneg_eq (a : ℚ) : qneg a = -a := by
  have ha : ((a.den : ℚ)) ≠ 0 := by exact_mod_cast a.den_nz
  rw [qneg, Rat.mkRat_eq_div]
  push_cast
  rw [neg_div, Rat.num_div_den]

theorem qsub_eq (a b : ℚ) : qsub a b = a - b := by
  rw [qsub, qadd_eq, qneg_eq]; ring

theorem qmul_eq (a b : ℚ) : qmul a b = a * b := by
  have ha : ((a.den : ℚ)) ≠ 0 := by exact_mod_cast a.den_nz
  have hb : ((b.den : ℚ)) ≠ 0 := by exact_mod_cast b.den_nz
  rw [qmul, Rat.mkRat_eq_div]
  push_cast
  rw [div_eq_iff (mul_ne_zero ha hb), qnum_eq a, qnum_eq b]
  ring

theorem qdiv_eq (a b : ℚ) : qdiv a b = a / b := by
  rcases eq_or_ne b 0 with hb0 | hb0
  · subst hb0; simp [qdiv]
  · have ha : ((a.den : ℚ)) ≠ 0 := by exact_mod_cast a.den_nz
    have hbn : ((b.num : ℚ)) ≠ 0 := by
      simpa using Rat.num_ne_zero.mpr hb0
    rw [qdiv, Rat.divInt_eq_div]
    push_cast
    rw [div_eq_div_iff (mul_ne_zero ha hbn) hb0, qnum_eq a, qnum_eq b]
    ring

theorem qofNat_eq (n : ℕ) : qofNat n = (n : ℚ) := by
  rw [qofNat, Rat.mkRat_eq_div]
  norm_num

theorem qpos_iff (a : ℚ) : qpos a = true ↔ 0 < a := by
  simp [qpos, Rat.num_pos]

/-! ## Helper lemmas -/

theorem cplx_mul_def (z w : Cplx) : z * w = Cplx.mul z w := rfl

theorem cplx_div_def (z w : Cplx) : z / w = Cplx.div z w := rfl

/-- Rearrangement of the adjoint scale prefactor: 0.5 * (1/res * 1/res * cscale)
equals 0.5 * cscale / res^2, including the degenerate res = 0 case where both
sides vanish. -/
theorem cplx_half_inv_sq (res : ℚ) (cs : Cplx) :
    Cplx.ofRat (mkRat 1 2) * (Cplx.ofRat (qdiv 1 res) * Cplx.ofRat (qdiv 1 res) * cs) =
      Cplx.ofRat (mkRat 1 2) * cs / (Cplx.ofRat res * Cplx.ofRat res) := by
  have hhalf : mkRat 1 2 = (1 : ℚ) / 2 := by norm_num [Rat.mkRat_eq_div]
  rcases eq_or_ne res 0 with h | h
  · subst h
    simp only [cplx_mul_def, cplx_div_def, Cplx.mul, Cplx.div, Cplx.inv, Cplx.ofRat,
      Cplx.mk.injEq, qadd_eq, qsub_eq, qmul_eq, qdiv_eq, qneg_eq, hhalf]
    norm_num
  · simp only [cplx_mul_def, cplx_div_def, Cplx.mul, Cplx.div, Cplx.inv, Cplx.ofRat,
      Cplx.mk.injEq, qadd_eq, qsub_eq, qmul_eq, qdiv_eq, qneg_eq, hhalf]
    constructor <;> field_simp

/-! ## Claim theorems -/

/-- Claim C1 (code bug): on an unsupported quantity code such as "X", the
fall-through branch of DFTCell.__call__ constructs
`ValueError('DFTCell {}: unsupported quantity type {}')` but never raises
it, so the call returns the Python value None instead of failing.  This
theorem evaluates the embedded call at the failing input and shows the
non-raising behaviour. -/
theorem c1_unsupported_code_returns_pynone :
    cexCell.call "X" 1 0 = Except.ok CallResult.pynone := by decide

/-- Claim C2, counterexample: on the concrete one-point flux cell
(eH = 0, hE = 1 after the zero incident subtraction) the lowercase code
"p" yields (eH - hE)/4 = -1/4, because the sign test
`qcode in ['P','F']` is case-sensitive; the claim asserts the forward
value (eH + hE)/4 = +1/4, i.e. modeOverlap with sign +1, which the call
does not return. -/
theorem c2_lowercase_forward_cex :
    cexCell.call "p" 1 0 = Except.ok (.cvalue ⟨mkRat (-1) 4, 0⟩) ∧
    cexCell.call "p" 1 0 ≠ Except.ok (.cvalue (modeOverlap 1 cexCell.weights
      [⟨1, 0⟩] [⟨0, 0⟩] [⟨0, 0⟩] [⟨1, 0⟩]
      [⟨1, 0⟩] [⟨0, 0⟩] [⟨0, 0⟩] [⟨0, 0⟩])) := by
  refine ⟨by decide, by decide⟩

/-- Claim C2, amended: with the mode-coefficient branch reached, the codes
"P" and "F" return the overlap (eH + hE)/4 with sign +1 and no incident
subtraction; the codes "M" and "B" return sign -1 without subtraction; and
every lowercase variant "p", "f", "m", "b" first subtracts the slice set
saved under the label "incident" and then returns the overlap with
sign -1 — including "p" and "f", because the sign test
`qcode in ['P','F']` compares the original (lowercase) code. -/
theorem c2_mode_coefficient_dispatch
    (s : DFTCellState) (mode nf : ℕ)
    (c0 c1 c2 c3 : Cpt) (hcomp : s.components = [c0, c1, c2, c3])
    (e0 e1 e2 e3 : List Cplx) (er : List (List Cplx))
    (heig : s.eigen mode nf = e0 :: e1 :: e2 :: e3 :: er)
    (incAll : List (List (List Cplx)))
    (hinc : s.cache.lookup "incident" = some incAll)
    (i0 i1 i2 i3 : List Cplx) (ir : List (List Cplx))
    (hincNf : incAll[nf]? = some (i0 :: i1 :: i2 :: i3 :: ir)) :
    (s.call "P" mode nf = Except.ok (.cvalue (modeOverlap 1 s.weights e0 e1 e2 e3
      (s.live c0 nf) (s.live c1 nf) (s.live c2 nf) (s.live c3 nf)))) ∧
    (s.call "F" mode nf = Except.ok (.cvalue (modeOverlap 1 s.weights e0 e1 e2 e3
      (s.live c0 nf) (s.live c1 nf) (s.live c2 nf) (s.live c3 nf)))) ∧
    (s.call "M" mode nf = Except.ok (.cvalue (modeOverlap (-1) s.weights e0 e1 e2 e3
      (s.live c0 nf) (s.live c1 nf) (s.live c2 nf) (s.live c3 nf)))) ∧
    (s.call "B" mode nf = Except.ok (.cvalue (modeOverlap (-1) s.weights e0 e1 e2 e3
      (s.live c0 nf) (s.live c1 nf) (s.live c2 nf) (s.live c3 nf)))) ∧
    (s.call "p" mode nf = Except.ok (.cvalue (modeOverlap (-1) s.weights e0 e1 e2 e3
      (vsub (s.live c0 nf) i0) (vsub (s.live c1 nf) i1)
      (vsub (s.live c2 nf) i2) (vsub (s.live c3 nf) i3)))) ∧
    (s.call "f" mode nf = Except.ok (.cvalue (modeOverlap (-1) s.weights e0 e1 e2 e3
      (vsub (s.live c0 nf) i0) (vsub (s.live c1 nf) i1)
      (vsub (s.live c2 nf) i2) (vsub (s.live c3 nf) i3)))) ∧
    (s.call "m" mode nf = Except.ok (.cvalue (modeOverlap (-1) s.weights e0 e1 e2 e3
      (vsub (s.live c0 nf) i0) (vsub (s.live c1 nf) i1)
      (vsub (s.live c2 nf) i2) (vsub (s.live c3 nf) i3)))) ∧
    (s.call "b" mode nf = Except.ok (.cvalue (modeOverlap (-1) s.weights e0 e1 e2 e3
      (vsub (s.live c0 nf) i0) (vsub (s.live c1 nf) i1)
      (vsub (s.live c2 nf) i2) (vsub (s.live c3 nf) i3)))) := by
  refine ⟨?_, ?_, ?_, ?_, ?_, ?_, ?_, ?_⟩
  · simp [DFTCellState.call, DFTCellState.getEHSlices, hcomp, heig, nth, modeOverlap,
      bind, Except.bind, pure, Except.pure,
      show pyUpper "P" = "P" from by decide,
      show pyIsLower "P" = false from by decide,
      show isSubstrOf "P" "PFMB" = true from by decide,
      show ("P" : String) ≠ "S" from by decide]
  · simp [DFTCellState.call, DFTCellState.getEHSlices, hcomp, heig, nth, modeOverlap,
      bind, Except.bind, pure, Except.pure,
      show pyUpper "F" = "F" from by decide,
      show pyIsLower "F" = false from by decide,
      show isSubstrOf "F" "PFMB" = true from by decide,
      show ("F" : String) ≠ "S" from by decide]
  · simp [DFTCellState.call, DFTCellState.getEHSlices, hcomp, heig, nth, modeOverlap,
      bind, Except.bind, pure, Except.pure,
      show pyUpper "M" = "M" from by decide,
      show pyIsLower "M" = false from by decide,
      show isSubstrOf "M" "PFMB" = true from by decide,
      show ("M" : String) ≠ "S" from by decide,
      show ¬(("M" : String) = "P" ∨ ("M" : String) = "F") from by decide]
  · simp [DFTCellState.call, DFTCellState.getEHSlices, hcomp, heig, nth, modeOverlap,
      bind, Except.bind, pure, Except.pure,
      show pyUpper "B" = "B" from by decide,
      show pyIsLower "B" = false from by decide,
      show isSubstrOf "B" "PFMB" = true from by decide,
      show ("B" : String) ≠ "S" from by decide,
      show ¬(("B" : String) = "P" ∨ ("B" : String) = "F") from by decide]
  · simp [DFTCellState.call, DFTCellState.getEHSlices, DFTCellState.subtractIncident,
      hcomp, heig, hinc, hincNf, nth, modeOverlap, bind, Except.bind, pure, Except.pure,
      show pyUpper "p" = "P" from by decide,
      show pyIsLower "p" = true from by decide,
      show isSubstrOf "P" "PFMB" = true from by decide,
      show pyUpper "P" = "P" from by decide,
      show ("P" : String) ≠ "S" from by decide,
      show ¬(("p" : String) = "P" ∨ ("p" : String) = "F") from by decide]
  · simp [DFTCellState.call, DFTCellState.getEHSlices, DFTCellState.subtractIncident,
      hcomp, heig, hinc, hincNf, nth, modeOverlap, bind, Except.bind, pure, Except.pure,
      show pyUpper "f" = "F" from by decide,
      show pyIsLower "f" = true from by decide,
      show isSubstrOf "F" "PFMB" = true from by decide,
      show pyUpper "F" = "F" from by decide,
      show ("F" : String) ≠ "S" from by decide,
      show ¬(("f" : String) = "P" ∨ ("f" : String) = "F") from by decide]
  · simp [DFTCellState.call, DFTCellState.getEHSlices, DFTCellState.subtractIncident,
      hcomp, heig, hinc, hincNf, nth, modeOverlap, bind, Except.bind, pure, Except.pure,
      show pyUpper "m" = "M" from by decide,
      show pyIsLower "m" = true from by decide,
      show isSubstrOf "M" "PFMB" = true from by decide,
      show pyUpper "M" = "M" from by decide,
      show ("M" : String) ≠ "S" from by decide,
      show ¬(("m" : String) = "P" ∨ ("m" : String) = "F") from by decide]
  · simp [DFTCellState.call, DFTCellState.getEHSlices, DFTCellState.subtractIncident,
      hcomp, heig, hinc, hincNf, nth, modeOverlap, bind, Except.bind, pure, Except.pure,
      show pyUpper "b" = "B" from by decide,
      show pyIsLower "b" = true from by decide,
      show isSubstrOf "B" "PFMB" = true from by decide,
      show pyUpper "B" = "B" from by decide,
      show ("B" : String) ≠ "S" from by decide,
      show ¬(("b" : String) = "P" ∨ ("b" : String) = "F") from by decide]

/-- Witness for c2_mode_coefficient_dispatch, applying it to the concrete
one-point flux cell. -/
theorem c2_mode_coefficient_dispatch_witness :
    cexCell.components = [Cpt.Ey, Cpt.Ez, Cpt.Hy, Cpt.Hz] ∧
    cexCell.eigen 1 0 = [⟨1, 0⟩] :: [⟨0, 0⟩] :: [⟨0, 0⟩] :: [⟨1, 0⟩] :: [] ∧
    cexCell.cache.lookup "incident" = some cexIncident ∧
    cexIncident[0]? = some ([⟨0, 0⟩] :: [⟨0, 0⟩] :: [⟨0, 0⟩] :: [⟨0, 0⟩] :: []) ∧
    cexCell.call "P" 1 0 = Except.ok (.cvalue (modeOverlap 1 cexCell.weights
      [⟨1, 0⟩] [⟨0, 0⟩] [⟨0, 0⟩] [⟨1, 0⟩]
      (cexCell.live .Ey 0) (cexCell.live .Ez 0) (cexCell.live .Hy 0) (cexCell.live .Hz 0))) :=
  ⟨rfl, rfl, by decide, by decide,
    (c2_mode_coefficient_dispatch cexCell 1 0 .Ey .Ez .Hy .Hz rfl
      [⟨1, 0⟩] [⟨0, 0⟩] [⟨0, 0⟩] [⟨1, 0⟩] [] rfl cexIncident (by decide)
      [⟨0, 0⟩] [⟨0, 0⟩] [⟨0, 0⟩] [⟨0, 0⟩] [] (by decide)).1⟩

/-- Claim C3, counterexample: make_grid does not return center[d] on a
collapsed axis, and does not normalise weights by the product of all
positive extents.  With size (2,2,0) and center (0,0,5) the appended third
tic list is the literal [0], not [5]; with size (0,2,2) (degenerate axis
leading) the inputs are truncated to the first two axes, so the single
weight is 2, not the product 4 = 2*2 of the positive extents. -/
theorem c3_make_grid_cex :
    ((makeGrid [2, 2, 0] [0, 0, 5] (some [1, 1]) none).map Grid.ztics = some [(0 : ℚ)]) ∧
    ([(0 : ℚ)] ≠ [(5 : ℚ)]) ∧
    ((makeGrid [0, 2, 2] [0, 0, 0] (some [1, 1]) none).map Grid.weights = some [(2 : ℚ)]) ∧
    ((2 : ℚ) ≠ 4) := by
  refine ⟨by decide, by decide, by decide, by decide⟩

/-- Claim C3, amended: for a box whose only degenerate axis is the
trailing axis (size = (s0, s1, 0) with s0, s1 > 0) and whose center has
zero third component, make_grid with default dims and length produces a
grid whose axis-2 coordinate list is exactly [center[2]] = [0] and whose
weights sum to the product s0*s1 of the positive extents.  (For other
placements of the zero axis, or nonzero center[2], the property fails, as
the counterexample shows.) -/
theorem c3_make_grid_trailing_degenerate (s0 s1 c0 c1 : ℚ)
    (h0 : 0 < s0) (h1 : 0 < s1) :
    ∃ g, makeGrid [s0, s1, 0] [c0, c1, 0] none none = some g ∧
      g.ztics = [(0 : ℚ)] ∧ g.weights.sum = s0 * s1 := by
  have hs0 : s0 ≠ 0 := ne_of_gt h0
  have hs1 : s1 ≠ 0 := ne_of_gt h1
  have hq0 : qpos s0 = true := (qpos_iff s0).mpr h0
  have hq1 : qpos s1 = true := (qpos_iff s1).mpr h1
  simp only [makeGrid, flatnonzeroCount, List.filter, hs0, hs1, hq0, hq1,
    ne_eq, decide_not, List.length_cons, List.length_nil,
    List.take, List.map, List.zipWith, List.zip]
  simp only [if_true, List.foldl]
  refine ⟨_, rfl, rfl, ?_⟩
  rw [List.sum_replicate, qdiv_eq, qofNat_eq, qmul_eq, qmul_eq, nsmul_eq_mul]
  push_cast
  field_simp

/-- Witness for c3_make_grid_trailing_degenerate at the unit box. -/
theorem c3_make_grid_trailing_degenerate_witness :
    ((0 : ℚ) < 1) ∧
    (∃ g, makeGrid [1, 1, 0] [0, 0, 0] none none = some g ∧
      g.ztics = [(0 : ℚ)] ∧ g.weights.sum = (1 : ℚ) * 1) :=
  ⟨by decide, c3_make_grid_trailing_degenerate 1 1 0 0 (by decide) (by decide)⟩

/-- Claim C4, counterexample: with size[0] = 0 and a raw axis-0 array
[0, 1] whose first point already equals center[0] = 0, fix_array_metadata
keeps the multi-point array instead of collapsing it to [center[0]]; the
claim asserts the collapse happens regardless of the raw contents. -/
theorem c4_fix_array_metadata_cex :
    fixArrayMetadata [0, 1] [0] [0] [1] [0, 0, 0] [0, 1, 1] =
      some ([0, 1], [0], [0], [1]) ∧ ([(0 : ℚ), 1] ≠ [(0 : ℚ)]) := by
  refine ⟨by decide, by decide⟩

/-- Claim C4, amended: after fix_array_metadata, an axis d with
size[d] = 0 holds the one-element array [center[d]] exactly when the first
raw coordinate differed from center[d]; when the first raw coordinate
already equals center[d] the raw array is kept unchanged, even if it has
several points. -/
theorem c4_fix_array_metadata_axis_rule (x y z w : List ℚ)
    (c0 c1 c2 s0 s1 s2 : ℚ) (out : List ℚ × List ℚ × List ℚ × List ℚ)
    (h : fixArrayMetadata x y z w [c0, c1, c2] [s0, s1, s2] = some out) :
    (∀ x0, x[0]? = some x0 → s0 = 0 → out.1 = if x0 ≠ c0 then [c0] else x) ∧
    (∀ y0, y[0]? = some y0 → s1 = 0 → out.2.1 = if y0 ≠ c1 then [c1] else y) ∧
    (∀ z0, z[0]? = some z0 → s2 = 0 → out.2.2.1 = if z0 ≠ c2 then [c2] else z) := by
  simp only [fixArrayMetadata, List.getElem?_cons_zero, List.getElem?_cons_succ,
    Option.some_bind, bind, Option.bind] at h
  rcases hfx : fixAxis x c0 s0 with _ | x1 <;> rw [hfx] at h
  · exact absurd h (by simp)
  rcases hfy : fixAxis y c1 s1 with _ | y1 <;> rw [hfy] at h
  · exact absurd h (by simp)
  rcases hfz : fixAxis z c2 s2 with _ | z1 <;> rw [hfz] at h
  · exact absurd h (by simp)
  simp only [pure, Option.some.injEq] at h
  subst h
  refine ⟨?_, ?_, ?_⟩
  · intro x0 hx0 hs0
    subst hs0
    simp [fixAxis, hx0] at hfx
    simp [hfx]
  · intro y0 hy0 hs1
    subst hs1
    simp [fixAxis, hy0] at hfy
    simp [hfy]
  · intro z0 hz0 hs2
    subst hs2
    simp [fixAxis, hz0] at hfz
    simp [hfz]

/-- Witness for c4_fix_array_metadata_axis_rule on a concrete metadata
set with a degenerate first axis whose raw first point is off-center. -/
theorem c4_fix_array_metadata_axis_rule_witness :
    (fixArrayMetadata [3, 4] [5] [6] [] [0, 0, 0] [0, 1, 1] =
      some ([0], [5], [6], [])) ∧
    (([(3 : ℚ), 4] : List ℚ)[0]? = some 3) ∧
    (([(0 : ℚ)], [(5 : ℚ)], [(6 : ℚ)], ([] : List ℚ)).1 =
      if (3 : ℚ) ≠ 0 then [(0 : ℚ)] else [3, 4]) :=
  ⟨by decide, by decide,
    (c4_fix_array_metadata_axis_rule [3, 4] [5] [6] [] 0 0 0 0 1 1
      ([0], [5], [6], []) (by decide)).1 3 (by decide) rfl⟩

/-- Claim C5 (code bug): Subregion.__init__ derives the corners from
center and size as center - size and center + size, omitting the 1/2
factor that the corner branch (center = (xmin+xmax)/2, size = xmax-xmin)
presupposes, so the two construction forms are mutually inconsistent and
the round trip from (center, size) through the derived corners doubles the
size.  With center (0,0,0), size (1,1,1): xmin is (-1,-1,-1) rather than
the claimed (-1/2,-1/2,-1/2), and renormalising the derived corners yields
size (2,2,2) instead of (1,1,1). -/
theorem c5_subregion_corner_convention :
    ((mkSubregion 1 0 1 none none ((0 : ℚ), 0, 0) (some ((1 : ℚ), 1, 1))
        none none none).map Subregion.xmin = some ((-1 : ℚ), -1, -1)) ∧
    (((-1 : ℚ), (-1 : ℚ), (-1 : ℚ)) ≠ ((mkRat (-1) 2 : ℚ), mkRat (-1) 2, mkRat (-1) 2)) ∧
    ((mkSubregion 1 0 1 (some ((-1 : ℚ), -1, -1)) (some ((1 : ℚ), 1, 1))
        ((0 : ℚ), 0, 0) none none none none).map Subregion.size = some ((2 : ℚ), 2, 2)) ∧
    (((2 : ℚ), (2 : ℚ), (2 : ℚ)) ≠ (((1 : ℚ), (1 : ℚ), (1 : ℚ)))) := by
  refine ⟨by decide, by decide, by decide, by decide⟩

/-- Claim C6, counterexample: with resolution 1, cscale 2, dJ = [1], a
single realized frequency 1 and a unit Fourier transform, the source
amplitude computed by place_adjoint_source is [2*pi*i] (the factor cscale
enters da_dE), whereas the claimed formula da_dE = 0.5/resolution^2 gives
[pi*i]. -/
theorem c6_adjoint_scale_cex :
    ((placeAdjointSource mC6 [1] 1 1).map AdjointSource.amp =
      Except.ok [(⟨0, qmul 2 NP_PI⟩ : Cplx)]) ∧
    ((placeAdjointSource mC6 [1] 1 1).map AdjointSource.amp ≠
      Except.ok [(⟨0, NP_PI⟩ : Cplx)]) := by
  refine ⟨by decide, by decide⟩

/-- Claim C6, amended: for an evaluated instance, every realized frequency
sweep fs and every broadcast derivative vector dJ, the per-frequency scale
list built by place_adjoint_source — passed as the source amplitude in the
single-frequency branch and as the scale argument of the FilteredSource
envelope in the broadband branch, i.e. the scaleProfile of the returned
source either way — is, entrywise over the sweep,
da_dE * dJ[f] * i * 2 * pi * f / FT(f) with
da_dE = 0.5 * cscale / resolution^2: the engine scaling factor cscale is
part of the prefactor, contrary to the claimed 0.5 / resolution^2. -/
theorem c6_adjoint_scale_formula (res dt tm fq : ℚ) (FT : ℚ → Cplx)
    (cs : Cplx) (kv cent sz : Vec3) (mode fwdIdx : ℕ) (nd : Option ℕ)
    (fs : List ℚ) (dJ : List Cplx) :
    (placeAdjointSource ⟨res, cent, sz, mode, fwdIdx, some kv, nd, some ⟨fq, FT⟩,
        some cs, some fs⟩ dJ dt tm).map AdjointSource.scaleProfile =
      Except.ok ((fs.zip dJ).map (fun p =>
        Cplx.ofRat (mkRat 1 2) * cs / (Cplx.ofRat res * Cplx.ofRat res) * p.2 * cI *
        Cplx.ofRat 2 * Cplx.ofRat NP_PI * Cplx.ofRat p.1 / FT p.1)) := by
  simp only [placeAdjointSource, computeK0, bind, Except.bind, Except.map]
  by_cases h : fs.length = 1 <;>
    simp only [h, if_true, if_false, AdjointSource.scaleProfile, cplx_half_inv_sq]

/-- Claim C7, counterexample: with no fixed wavevector, detected normal
axis 0 and forward = True (forwardIdx 0), the wavevector actually set is
-x-hat, not the +x-hat the claim asserts for the forward direction: the
scalar is `1 if self.forward else -1` where self.forward is the index 0
for a forward monitor, which is falsy. -/
theorem c7_wavevector_sign_cex :
    computeK0 none 0 (some 0) = Except.ok (some ((-1 : ℚ), 0, 0)) ∧
    computeK0 none 0 (some 0) ≠ Except.ok (some ((1 : ℚ), 0, 0)) := by
  refine ⟨by decide, by decide⟩

/-- Claim C7, amended: when no fixed wavevector is supplied, a detected
normal axis of 0 or 1 sets the adjoint wavevector to the corresponding
unit vector scaled by -1 for a forward monitor (forwardIdx 0) and +1 for a
reverse one; a detected normal axis of 2 enters the defective branch whose
equality comparison reads the never-assigned local k0, so the call fails
with an unbound-local read and no z-axis default wavevector is ever set. -/
theorem c7_wavevector_default_branches (res dt tm fq f : ℚ) (FT : ℚ → Cplx)
    (cs dj : Cplx) (cent sz : Vec3) (mode fwdIdx : ℕ) :
    ((placeAdjointSource ⟨res, cent, sz, mode, fwdIdx, none, some 0, some ⟨fq, FT⟩,
        some cs, some [f]⟩ [dj] dt tm).map AdjointSource.kpoint
      = Except.ok (v3smul (if fwdIdx = 0 then (-1 : ℚ) else 1) xhat3)) ∧
    ((placeAdjointSource ⟨res, cent, sz, mode, fwdIdx, none, some 1, some ⟨fq, FT⟩,
        some cs, some [f]⟩ [dj] dt tm).map AdjointSource.kpoint
      = Except.ok (v3smul (if fwdIdx = 0 then (-1 : ℚ) else 1) yhat3)) ∧
    (placeAdjointSource ⟨res, cent, sz, mode, fwdIdx, none, some 2, some ⟨fq, FT⟩,
        some cs, some [f]⟩ [dj] dt tm = Except.error ObjErr.unboundLocalRead) := by
  refine ⟨?_, ?_, ?_⟩
  · simp only [placeAdjointSource, computeK0, directionScalar, bind, Except.bind, Except.map]
    by_cases h : fwdIdx = 0 <;> simp [h, Except.map]
  · simp only [placeAdjointSource, computeK0, directionScalar, bind, Except.bind, Except.map]
    by_cases h : fwdIdx = 0 <;> simp [h, Except.map]
  · simp [placeAdjointSource, computeK0, bind, Except.bind]

/-- Claim C8: requesting slices under a label that was never saved raises
the unknown-label ValueError carrying the cell name and the label; and
after save_fields(label), the slices retrieved under that label at any
in-range frequency index equal the live slices at the moment of the save,
unaffected by any later change of the live monitor data. -/
theorem c8_label_cache_semantics (s : DFTCellState) (lab : String) (nf : ℕ) :
    (s.cache.lookup lab = none →
      s.getEHSlices (some lab) nf = .error (.unknownLabel s.name lab)) ∧
    (∀ live2 : Cpt → ℕ → List Cplx, nf < s.freqs.length →
      ((s.saveFields lab).withLive live2).getEHSlices (some lab) nf =
        .ok (s.components.map (fun c => s.live c nf))) := by
  constructor
  · intro h
    simp [DFTCellState.getEHSlices, h]
  · intro live2 hnf
    simp [DFTCellState.saveFields, DFTCellState.withLive, DFTCellState.getEHSlices,
      List.lookup, List.getElem?_map, List.getElem?_range, hnf]

/-- Witness for c8_label_cache_semantics on the concrete flux cell: the
label "ghost" was never saved and errors; saving under "x" and then
replacing the live fields still returns the slices from save time. -/
theorem c8_label_cache_semantics_witness :
    (cexCell.cache.lookup "ghost" = none) ∧
    (cexCell.getEHSlices (some "ghost") 0 =
      .error (.unknownLabel "flux_0" "ghost")) ∧
    (0 < cexCell.freqs.length) ∧
    (((cexCell.saveFields "x").withLive (fun _ _ => [])).getEHSlices (some "x") 0 =
      .ok (cexCell.components.map (fun c => cexCell.live c 0))) :=
  ⟨by decide, (c8_label_cache_semantics cexCell "ghost" 0).1 (by decide), by decide,
    (c8_label_cache_semantics cexCell "x" 0).2 (fun _ _ => []) (by decide)⟩

/-- Claim C9, counterexample: an unevaluated instance whose detected
normal axis is 2 and whose wavevector was not fixed fails with the
unbound-local read of the defective axis-2 branch, which precedes every
access to the unset evaluation state, so the failure is not the
PrematureAccess (AttributeError) the claim asserts for every instance. -/
theorem c9_axis2_preempts_premature_cex :
    placeAdjointSource mC9 [1] 1 1 = Except.error ObjErr.unboundLocalRead ∧
    ObjErr.unboundLocalRead ≠ ObjErr.prematureAccess :=
  ⟨rfl, by decide⟩

/-- Claim C9, amended: calling place_adjoint_source before the call
operator has populated time_src, cscale and freqs fails with
PrematureAccess (the AttributeError on the unset attributes, first hit at
the cscale read), provided the instance is not in the one preempting
configuration: no fixed wavevector together with detected normal axis 2,
where the defective wavevector branch fails first. -/
theorem c9_premature_access (m : EigenmodeCoefficient) (dJ : List Cplx)
    (dt tm : ℚ) (hcs : m.cscale = none) (_hfs : m.freqs = none)
    (_hts : m.timeSrc = none)
    (hk : ¬(m.k0 = none ∧ m.normalDirection = some 2)) :
    placeAdjointSource m dJ dt tm = .error .prematureAccess := by
  rcases hk0 : m.k0 with _ | v
  · rcases hnd : m.normalDirection with _ | n
    · simp [placeAdjointSource, computeK0, hk0, hnd, hcs, bind, Except.bind]
    · match n with
      | 0 => simp [placeAdjointSource, computeK0, hk0, hnd, hcs, bind, Except.bind]
      | 1 => simp [placeAdjointSource, computeK0, hk0, hnd, hcs, bind, Except.bind]
      | 2 => exact absurd ⟨hk0, hnd⟩ hk
      | Nat.succ (Nat.succ (Nat.succ n)) =>
        simp [placeAdjointSource, computeK0, hk0, hnd, hcs, bind, Except.bind]
  · simp [placeAdjointSource, computeK0, hk0, hcs, bind, Except.bind]

/-- Witness for c9_premature_access on an unevaluated instance with a
fixed wavevector. -/
theorem c9_premature_access_witness :
    (mC9w.cscale = none) ∧ (mC9w.freqs = none) ∧ (mC9w.timeSrc = none) ∧
    (¬(mC9w.k0 = none ∧ mC9w.normalDirection = some 2)) ∧
    (placeAdjointSource mC9w [1] 1 1 = .error .prematureAccess) :=
  ⟨rfl, rfl, rfl, by decide,
    c9_premature_access mC9w [1] 1 1 rfl rfl rfl (by decide)⟩

/-- Claim C10: the mode-coefficient dispatch is the Python substring test
`quantity.upper() in 'PFMB'`, so the empty string and the adjacent
two-letter substrings "pf", "fm", "mb" all reach the coefficient branch
and return a mode-overlap value instead of failing as unsupported
quantities.  On the concrete one-point flux cell every one of them
returns the coefficient (eH - hE)/4 = -1/4 (their sign test also fails,
so all get sign -1; the lowercase ones additionally subtract the saved
zero incident slices). -/
theorem c10_substring_dispatch :
    cexCell.call "" 1 0 = Except.ok (.cvalue ⟨mkRat (-1) 4, 0⟩) ∧
    cexCell.call "pf" 1 0 = Except.ok (.cvalue ⟨mkRat (-1) 4, 0⟩) ∧
    cexCell.call "fm" 1 0 = Except.ok (.cvalue ⟨mkRat (-1) 4, 0⟩) ∧
    cexCell.call "mb" 1 0 = Except.ok (.cvalue ⟨mkRat (-1) 4, 0⟩) := by
  refine ⟨by decide, by decide, by decide, by decide⟩
